import Mathlib

/-!
# Verification of the membership / lookup bot (`numberinfo-bot.py`)

Shallow embedding of the membership ledger, persistence codec, query
normalizer, report formatter, lookup-report pipeline and the non-admin
message handler of `src/numberinfo-bot.py`, together with proofs of the
frozen claims about them.

Modelling conventions:
* `datetime` values are `Nat` timestamps counted in seconds; `datetime.max`
  is the fixed sentinel `dtMax` (its concrete magnitude is irrelevant to
  every statement below, only that admin records carry exactly this value).
* `float("inf")` credit is the constructor `Credit.inf`; all finite credits
  are `Int` (the program only ever stores Python ints or `float("inf")`
  after a load).
* Python dicts are association lists with dict-assignment semantics
  (`aset` replaces in place, preserving position, or appends a new key).
* Strings are Lean `String`s; `str.strip()` / `str.lower()` are modelled
  over the ASCII whitespace/letters that every claim exercises.
-/

/-- `datetime.max` (line 130/134): the maximal timestamp sentinel.  The
program never constructs a larger finite timestamp; its numeric value is
arbitrary in the model (here: seconds of 9999-12-31 23:59:59 UTC). -/
def dtMax : Nat := 253402300799

/-- A credit balance: a Python int, or `float("inf")` (lines 97-103). -/
inductive Credit where
  | fin (n : Int)
  | inf
deriving DecidableEq, Repr

/-- One ledger record: `{"expiry": datetime, "credit": int/inf, "name": str}`
(line 54 and `load_members`, line 105). -/
structure MemberInfo where
  expiry : Nat
  credit : Credit
  name : String
deriving DecidableEq, Repr

/-- The in-memory `MEMBERS` dict: uid -> record (line 54). -/
abbrev Ledger := List (Int × MemberInfo)

/-- Python `d.get(k)` / `k in d` on a dict modelled as an association
list: the first entry with the key (dicts have unique keys). -/
def alookup {κ α : Type} [DecidableEq κ] (m : List (κ × α)) (k : κ) : Option α :=
  (m.find? (fun e => decide (e.1 = k))).map Prod.snd

/-- Python `d[k] = v` on a dict: replace in place (keeping the entry's
position) when the key is present, append otherwise. -/
def aset {κ α : Type} [DecidableEq κ] (m : List (κ × α)) (k : κ) (v : α) : List (κ × α) :=
  if m.any (fun e => decide (e.1 = k)) then m.map (fun e => if e.1 = k then (k, v) else e)
  else m ++ [(k, v)]

/-! ## Decimal codec

`str(int)` / `int(str)` and the timestamp serialisation
(`datetime.isoformat` / `datetime.fromisoformat`, lines 67-77) are
modelled by an injective decimal encoding with an executable parser.
(`fromisoformat(isoformat(t)) = t` holds in Python for every datetime;
the model realises the codec pair over decimal numerals.) -/

/-- Numeric value of a decimal digit character. -/
def charVal (c : Char) : Nat := c.toNat - 48

/-- Fuel-driven decimal printer (fuel is only there for structural
termination; `natToStr` always supplies enough). -/
def natToStrGo : Nat → Nat → List Char
  | 0, _ => []
  | fuel + 1, n =>
    if n < 10 then [Nat.digitChar n]
    else natToStrGo fuel (n / 10) ++ [Nat.digitChar (n % 10)]

/-- Canonical decimal rendering of a `Nat`, as Python `str` produces. -/
def natToStr (n : Nat) : List Char := natToStrGo (n + 1) n

/-- `str(n)` for a natural number. -/
def natRepr (n : Nat) : String := String.mk (natToStr n)

/-- `str(i)` for a Python int (canonical sign + decimal digits). -/
def intToStr (i : Int) : List Char :=
  if i < 0 then '-' :: natToStr i.natAbs else natToStr i.natAbs

/-- `str(i)` as a `String`. -/
def intRepr (i : Int) : String := String.mk (intToStr i)

/-- Value of a digit string (big-endian fold, as `int` parses). -/
def strValC (cs : List Char) : Nat := cs.foldl (fun a c => a * 10 + charVal c) 0

/-- Parse an unsigned decimal numeral; `none` when empty or non-digit
(Python `int("")` / `int("x")` raise `ValueError`). -/
def strToNatC (cs : List Char) : Option Nat :=
  if cs ≠ [] ∧ cs.all Char.isDigit then some (strValC cs) else none

/-- Parse a signed decimal numeral, as Python `int(str)` does on the
canonical strings this program writes (an optional `+`/`-` sign then
digits; Python's additional tolerance for surrounding whitespace and
inner underscores never arises from `str(int)` output). -/
def strToIntC : List Char → Option Int
  | [] => none
  | c :: rest =>
    if c = '-' then (strToNatC rest).map (fun n => -(n : Int))
    else if c = '+' then (strToNatC rest).map (fun n => (n : Int))
    else (strToNatC (c :: rest)).map (fun n => (n : Int))

/-- `int(s)` returning `none` on `ValueError` (see `strToIntC`). -/
def str_to_int? (s : String) : Option Int := strToIntC s.toList

/-- Unsigned numeral parse on a `String`. -/
def str_to_nat? (s : String) : Option Nat := strToNatC s.toList

/-! ## Python string helpers -/

/-- `str.strip()` (ASCII whitespace, which is all the program's strings
contain). -/
def pyStrip (s : String) : String :=
  String.mk (((s.toList.dropWhile Char.isWhitespace).reverse.dropWhile Char.isWhitespace).reverse)

/-- `str.lower()` (ASCII letters; only compared against `"null"`). -/
def pyLower (s : String) : String := String.mk (s.toList.map Char.toLower)

/-- `sep.join(xs)` (Python `str.join`). -/
def pyJoin (sep : String) : List String → String
  | [] => ""
  | x :: rest => rest.foldl (fun acc y => acc ++ sep ++ y) x

/-- `s.startswith(p)` (Python `str.startswith`). -/
def str_startsWith (s p : String) : Bool := p.toList.isPrefixOf s.toList

/-! ## Query normalizer (`clean_input`, lines 161-172) -/

/-- A character of the regex class `[\w\.-]` (`\w` restricted to ASCII,
which every claim input uses). -/
def isWordChar (c : Char) : Bool := c.isAlphanum || c = '_' || c = '.' || c = '-'

/-- The tail `[A-Za-z]{2,}$` of the e-mail regex. -/
def tldOk (t : List Char) : Bool := decide (2 ≤ t.length) && t.all Char.isAlpha

/-- The domain part `[\w\.-]+\.[A-Za-z]{2,}$`: by regex backtracking this
matches exactly when the text splits as `m ++ "." ++ tld` with `m`
non-empty over `[\w\.-]` and `tld` at least two letters. -/
def domainMatch (cs : List Char) : Bool :=
  (List.range cs.length).any (fun i =>
    match cs.drop i with
    | '.' :: t => !(cs.take i).isEmpty && (cs.take i).all isWordChar && tldOk t
    | _ => false)

/-- `re.match(r"^[\w\.-]+@[\w\.-]+\.[A-Za-z]{2,}$", q)` (line 164): since
the local class excludes `@`, the local part is exactly the text before
the first `@`. -/
def emailMatch (cs : List Char) : Bool :=
  let loc := cs.takeWhile (fun c => !(c = '@' : Bool))
  match cs.drop loc.length with
  | '@' :: dom => !loc.isEmpty && loc.all isWordChar && domainMatch dom
  | _ => false

/-- Python `str.isdigit()`: non-empty and all digits. -/
def pyIsDigit (cs : List Char) : Bool := !cs.isEmpty && cs.all Char.isDigit

/-- `clean_input` (lines 161-172): e-mail accepted as-is; else strip
spaces/hyphens/dots/commas (`re.sub(r"[ \-.,]", "", q)`), accept a bare
10-digit number with `+91` prefixed, accept an existing
`+91`+10-digit form, reject everything else. -/
def clean_input (query : String) : Option String :=
  let q := pyStrip query
  if emailMatch q.toList then some q
  else
    let q2 := q.toList.filter (fun c => !(c = ' ' || c = '-' || c = '.' || c = ','))
    if pyIsDigit q2 && decide (q2.length = 10) then some ("+91" ++ String.mk q2)
    else if ['+', '9', '1'].isPrefixOf q2 && decide (q2.length = 13) && pyIsDigit (q2.drop 1) then
      some (String.mk q2)
    else none

/-! ## Report formatter (`KEY_EMOJI_MAP`, `_append_line`, `format_entry`,
lines 187-248) -/

/-- The static priority table (lines 187-226), in its source order.
Python dicts iterate in insertion order, so this list order is the
rendering order of known keys. -/
def KEY_EMOJI_MAP : List (String × String) :=
  [("FatherName", "👤 Full Name"),
   ("FullName", "🧑‍🤝‍🧑 Father/Spouse"),
   ("FirstName", "🧑 First Name"),
   ("NickName", "💟 Nickname"),
   ("Gender", "🚻 Gender"),
   ("Age", "🧮 Age"),
   ("Password", "✍️ Password"),
   ("Phone", "☎️ Mobile"),
   ("Phone2", "📱 Alt Mobile"), ("Phone3", "📱 Alt Mobile"), ("Phone4", "📱 Alt Mobile"),
   ("Phone5", "📱 Alt Mobile"), ("Phone6", "📱 Alt Mobile"), ("Phone7", "📱 Alt Mobile"),
   ("Phone8", "📱 Alt Mobile"), ("Phone9", "📱 Alt Mobile"), ("Phone10", "📱 Alt Mobile"),
   ("Mobile", "☎️ Mobile"),
   ("Mobile2", "📱 Alt Mobile"), ("Mobile3", "📱 Alt Mobile"), ("Mobile4", "📱 Alt Mobile"),
   ("Mobile5", "📱 Alt Mobile"), ("Mobile6", "📱 Alt Mobile"), ("Mobile7", "📱 Alt Mobile"),
   ("Mobile8", "📱 Alt Mobile"), ("Mobile9", "📱 Alt Mobile"), ("Mobile10", "📱 Alt Mobile"),
   ("Email", "📧 Email"),
   ("DocNumber", "🪪 Aadhar/PAN"),
   ("PassportNumber", "🪪 Aadhar No. "),
   ("Address", "🔎 Address"),
   ("Address1", "🔎 Alt Address"), ("Address2", "🔎 Alt Address"), ("Address3", "🔎 Alt Address"),
   ("Address4", "🔎 Alt Address"), ("Address5", "🔎 Alt Address"), ("Address6", "🔎 Alt Address"),
   ("Address7", "🔎 Alt Address"), ("Address8", "🔎 Alt Address"), ("Address9", "🔎 Alt Address"),
   ("Address10", "🔎 Alt Address"),
   ("CompanyName", "🏢 Company"),
   ("City", "🏙️ City"),
   ("District", "🗺️ District"),
   ("IndianState", "🧭 State"),
   ("State", "🧭 State"),
   ("Country", "🌍 Country"),
   ("Region", "📍 Circle"),
   ("MobileOperator", "📡 Operator"),
   ("IP", "🌐 IP"),
   ("RegDate", "📅 Registered On"),
   ("Salt", "🧂 Salt"),
   ("TimeTaken", "⏱️ Time Taken"),
   ("Whatsapp", "💬 WhatsApp")]

/-- A provider record: JSON object of field -> value, with `none`
modelling JSON `null` (Python `None`); other JSON scalars arrive through
`str(val)` as their string rendering. -/
abbrev EntryRec := List (String × Option String)

/-- `_append_line` (lines 229-235): skip `None`; `str(val).strip()`,
skip empty or (case-insensitive) `"null"`, else append `"label: value"`. -/
def append_line (lines : List String) (label : String) (val : Option String) : List String :=
  match val with
  | none => lines
  | some v =>
    let s := pyStrip v
    if s = "" ∨ pyLower s = "null" then lines
    else lines ++ [label ++ ": " ++ s]

/-- `format_entry` (lines 238-248): header, then known keys in table
order (via `key in entry` / `entry.get(key)`), then the remaining keys
in the entry's own order (`for key in entry` yields each key with its
unique dict value). -/
def format_entry (entry : EntryRec) (idx : Nat) : String :=
  let lines := ["— Result " ++ natRepr idx ++ " —"]
  let lines := KEY_EMOJI_MAP.foldl (fun ls kl =>
    match alookup entry kl.1 with
    | some v => append_line ls kl.2 v
    | none => ls) lines
  let lines := entry.foldl (fun ls kv =>
    if (alookup KEY_EMOJI_MAP kv.1).isSome then ls else append_line ls kv.1 kv.2) lines
  pyJoin "\n" lines

/-- Spec-side rendering of one field: `none` when the value is absent,
empty, whitespace-only or the literal null marker, else the line. -/
def renderVal (val : Option String) : Option String :=
  match val with
  | none => none
  | some v =>
    let s := pyStrip v
    if s = "" ∨ pyLower s = "null" then none else some s

/-- Spec-side line for a labelled field. -/
def renderLine (label : String) (val : Option String) : Option String :=
  (renderVal val).map (fun t => label ++ ": " ++ t)

/-- Formatter described as in the spec: header, the known fields in the
priority table's fixed order, then the unrecognized fields in encounter
order, omitting blank/null values. -/
def format_entry_spec (entry : EntryRec) (idx : Nat) : String :=
  pyJoin "\n" (("— Result " ++ natRepr idx ++ " —") ::
    (KEY_EMOJI_MAP.filterMap (fun kl => (alookup entry kl.1).bind (fun v => renderLine kl.2 v)) ++
     entry.filterMap (fun kv =>
       if (alookup KEY_EMOJI_MAP kv.1).isSome then none else renderLine kv.1 kv.2)))

/-! ## Lookup client and report generation (`post_with_retry`,
`generate_report`, lines 175-184 and 251-277)

The outbound call's observable outcome is the environment's choice; the
payload `{token, request, limit, lang}` only selects it.  `HttpResp`
models that outcome: `timeout` is `post_with_retry` returning `None`
(every one of the `HTTP_RETRIES` attempts raised, line 184); `reply`
carries the HTTP status and body.  A body is either unparseable JSON
(`resp.json()` raising) or parsed data, which the handler reads as
`{"List": {source: {"Data": [entry, ...]}, ...}}`: `emptyOrNoList` is
falsy data / missing or falsy `"List"` (line 264), `malformedList` is a
`"List"` whose iteration raises (line 269-274's `try` block, e.g. a
truthy non-dict block), and `listOf` is the expected shape (a `None`
block or one without `"Data"` contributes an empty entry list, line 271). -/

inductive RespData where
  | emptyOrNoList
  | malformedList
  | listOf (blocks : List (String × List EntryRec))
deriving DecidableEq

inductive RespBody where
  | badJson
  | parsed (data : RespData)
deriving DecidableEq

inductive HttpResp where
  | timeout
  | reply (status : Nat) (body : RespBody)
deriving DecidableEq

/-- Flatten all `Data` entries across blocks and number them from 1
(lines 267-273's nested loop with its running `count`). -/
def assemble_results (blocks : List (String × List EntryRec)) : List String :=
  ((blocks.map Prod.snd).flatten).mapIdx (fun i e => format_entry e (i + 1))

/-- `generate_report` (lines 251-277) as a function of the call outcome.
`if not resp` (line 255) uses `requests.Response.__bool__`, which is
`status_code < 400`, so statuses ≥ 400 fall into the generic message
before the explicit non-200 branch is reached. -/
def generate_report (r : HttpResp) : String :=
  match r with
  | .timeout => "🚫 Server Problem, Please Contact Bot Owner"
  | .reply status body =>
    if 400 ≤ status then "🚫 Server Problem, Please Contact Bot Owner"
    else if status ≠ 200 then "🚫 Server Error: HTTP " ++ natRepr status
    else
      match body with
      | .badJson => "🚫 Server Problem, Please Contact Bot Owner"
      | .parsed .emptyOrNoList => "🚫 No results found for this number or email."
      | .parsed .malformedList => "🚫 Response format changed. Please contact bot owner."
      | .parsed (.listOf blocks) =>
        let results := assemble_results blocks
        if results.isEmpty then "🚫 No results found for this number or email."
        else pyJoin "\n\n" results

/-- The lookup-failure outcomes of the claim: unreachable after retries,
non-200 status, or a body that fails to parse (either as JSON or as the
expected nested structure). -/
def isLookupFailure : HttpResp → Bool
  | .timeout => true
  | .reply status body =>
    decide (status ≠ 200) ||
      (match body with
       | .badJson => true
       | .parsed .malformedList => true
       | .parsed _ => false)

/-- The messages `generate_report` uses to report a server-side problem
(as opposed to results or the no-results notice). -/
def isServerFailureMessage (s : String) : Bool :=
  decide (s = "🚫 Server Problem, Please Contact Bot Owner") ||
  str_startsWith s "🚫 Server Error: HTTP " ||
  decide (s = "🚫 Response format changed. Please contact bot owner.")

/-! ## Persistence (`load_members` / `save_members`, lines 80-122)

The members file is modelled as it presents itself to `load_members`:
missing, unreadable (an open/JSON-parse error, or any exception while
walking the raw object — e.g. a non-dict value — which the outer
`except` turns into an empty ledger), or a parsed JSON object.  A raw
JSON scalar is a string, an int, or `other` (anything `int()` rejects
and `isinstance(..., str)` rejects; JSON floats/booleans, which `int()`
would coerce, never occur in this program's files and are not modelled). -/

inductive RawVal where
  | str (s : String)
  | int (n : Int)
  | other
deriving DecidableEq

/-- One raw member object from the file; `none` fields are absent keys.
(A non-string `"name"` is not modelled; the program would store it
unchanged and never constructs one.) -/
structure RawInfo where
  expiry : Option RawVal
  credit : Option RawVal
  name : Option String
deriving DecidableEq

inductive RawFile where
  | missing
  | unreadable
  | dict (entries : List (String × RawInfo))
deriving DecidableEq

/-- `_dt_to_iso` (line 67): serialise a timestamp. -/
def _dt_to_iso (t : Nat) : String := natRepr t

/-- `_iso_to_dt` (lines 71-77): parse a serialised timestamp, falling
back to `datetime.now()` when broken. -/
def _iso_to_dt (s : String) (now : Nat) : Nat :=
  match str_to_nat? s with
  | some t => t
  | none => now

/-- One iteration of `load_members`' loop (lines 90-105): skip keys that
are not integer strings; parse expiry with fallback `now` (also the
default when absent — `datetime.now().isoformat()` parses back to `now`,
and a non-string raises inside `_iso_to_dt` which returns `now`);
credit: the literal string `"inf"` is the infinite sentinel, otherwise
`int(...)` with fallback 0; name defaults to the empty string. -/
def load_step (now : Nat) (tmp : Ledger) (e : String × RawInfo) : Ledger :=
  match str_to_int? e.1 with
  | none => tmp
  | some uid =>
    let expiry := match e.2.expiry with
      | some (.str s) => _iso_to_dt s now
      | some _ => now
      | none => now
    let credit := match e.2.credit with
      | some (.str s) =>
        if s = "inf" then Credit.inf
        else Credit.fin ((str_to_int? s).getD 0)
      | some (.int n) => Credit.fin n
      | some .other => Credit.fin 0
      | none => Credit.fin 0
    let name := e.2.name.getD ""
    aset tmp uid ⟨expiry, credit, name⟩

/-- `load_members` (lines 80-108): empty on a missing file or any read
error, else fold the raw entries into a fresh dict. -/
def load_members (file : RawFile) (now : Nat) : Ledger :=
  match file with
  | .missing => []
  | .unreadable => []
  | .dict entries => entries.foldl (load_step now) []

/-- `save_members` (lines 111-122): serialise every record under its
`str(uid)` key, with infinite credit written as the string `"inf"`. -/
def save_members (m : Ledger) : List (String × RawInfo) :=
  m.map (fun e =>
    (intRepr e.1,
     { expiry := some (.str (_dt_to_iso e.2.expiry)),
       credit := some (match e.2.credit with
         | .inf => RawVal.str "inf"
         | .fin n => RawVal.int n),
       name := some e.2.name }))

/-! ## Ledger reconciliation (`ensure_lifetime_admins`,
`cleanup_expired_members`, lines 125-158) -/

/-- One iteration of `ensure_lifetime_admins`' loop (lines 127-141): a
missing admin record is created with the lifetime sentinels (and the
name default `MEMBERS.get(aid, {}).get("name", "")`, which is `""` since
the record is absent); a present record is forced to `datetime.max` /
`float("inf")` when either field is non-conformant, setting the changed
flag; a conformant record is left alone. -/
def ensure_step (acc : Ledger × Bool) (aid : Int) : Ledger × Bool :=
  match alookup acc.1 aid with
  | none => (aset acc.1 aid ⟨dtMax, Credit.inf, ""⟩, true)
  | some cur =>
    if cur.expiry ≠ dtMax ∨ cur.credit ≠ Credit.inf then
      (aset acc.1 aid ⟨dtMax, Credit.inf, cur.name⟩, true)
    else acc

/-- `ensure_lifetime_admins` (lines 125-143); the returned flag is
`changed`, i.e. whether `save_members()` runs. -/
def ensure_lifetime_admins (admins : List Int) (m : Ledger) : Ledger × Bool :=
  admins.foldl ensure_step (m, false)

/-- The expiry test of lines 154 and 487: expiry at or before `now`, or
finite credit ≤ 0. -/
def isExpired (now : Nat) (info : MemberInfo) : Bool :=
  decide (info.expiry ≤ now) ||
    (match info.credit with
     | .fin c => decide (c ≤ 0)
     | .inf => false)

/-- An entry survives `cleanup_expired_members`' loop iff it belongs to
an admin id (line 150's `continue`) or is not expired. -/
def keepMember (admins : List Int) (now : Nat) (e : Int × MemberInfo) : Bool :=
  decide (e.1 ∈ admins) || !(isExpired now e.2)

/-- `cleanup_expired_members` (lines 146-158); the returned flag is
`removed`, i.e. whether `save_members()` runs. -/
def cleanup_expired_members (admins : List Int) (now : Nat) (m : Ledger) : Ledger × Bool :=
  (m.filter (keepMember admins now), m.any (fun e => !(keepMember admins now e)))

/-- The reconciliation pass run at the start of every interaction
(`load_members(); ensure_lifetime_admins(); cleanup_expired_members()`,
lines 305-307 / 355-357 / 554-556), on an already-loaded ledger: admin
enforcement, then reaping.  Returns the resulting ledger and the two
save flags (ensure's `changed`, cleanup's `removed`). -/
def reload_and_reconcile (admins : List Int) (now : Nat) (m : Ledger) :
    Ledger × Bool × Bool :=
  ((cleanup_expired_members admins now (ensure_lifetime_admins admins m).1).1,
   (ensure_lifetime_admins admins m).2,
   (cleanup_expired_members admins now (ensure_lifetime_admins admins m).1).2)

/-! ## The message handler for a non-admin user (`handle_message`,
lines 354-543)

`handle_message` starts by re-loading the store and reconciling; the
model takes the loaded ledger as input.  For a user with
`is_admin(user_id) = false` the admin block (lines 369-475) is skipped
wholesale, so the embedding covers lines 354-367 and the member flow
477-543; the `is_admin` test reappears faithfully in the debit guard
(line 533).  `context.user_data` for a non-admin user holds only the
`awaiting_query` flag.  All `datetime.now()` calls while one message is
handled are the single instant `now`.  The legacy string-credit
coercion of lines 485-486 is a no-op on loaded ledgers (`load_members`
already converted `"inf"`), so `credit` is just the record's credit. -/

def SEARCH_COOLDOWN_SECONDS : Nat := 3

def CREDIT_COST_PER_QUERY : Int := 1

/-- Per-user conversation state of a non-admin user (process-local
`context.user_data`). -/
structure UserData where
  awaiting_query : Bool
deriving DecidableEq, Repr

/-- Everything one `handle_message` call produces: the new in-memory
ledger (= the store, since every mutation saves), the cooldown map, the
conversation state, the texts sent to the user, and how many
`save_members()` calls ran. -/
structure HandleResult where
  members : Ledger
  lastQueryAt : List (Int × Nat)
  userData : UserData
  replies : List String
  saves : Nat
deriving DecidableEq, Repr

/-- The ledger after the reconciliation prelude of an interaction. -/
def reconciled_ledger (admins : List Int) (now : Nat) (m : Ledger) : Ledger :=
  (reload_and_reconcile admins now m).1

/-- Saves performed by the reconciliation prelude. -/
def reconcile_save_count (admins : List Int) (now : Nat) (m : Ledger) : Nat :=
  (if (reload_and_reconcile admins now m).2.1 then 1 else 0) +
  (if (reload_and_reconcile admins now m).2.2 then 1 else 0)

/-- The member status reply (lines 488-500).  The `strftime` date
rendering of the expiry is modelled as its numeral; nothing below
inspects it. -/
def member_status_text (user_id : Int) (firstName : String) (now : Nat)
    (info : MemberInfo) : String :=
  let remaining := info.expiry - now
  let hours := remaining / 3600
  let minutes := remaining % 3600 / 60
  let lifetime := info.credit = Credit.inf ∨ info.expiry = dtMax
  let left_text := if lifetime then "∞" else natRepr hours ++ "h " ++ natRepr minutes ++ "m"
  let credit_text := match info.credit with
    | .inf => "∞"
    | .fin n => intRepr n
  let exp_text := if lifetime then "Lifetime" else natRepr info.expiry
  "🟢 Active: Left: " ++ left_text ++ "\n🆔 " ++ intRepr user_id ++ " (" ++ firstName ++
    ")\n💳 Credits: " ++ credit_text ++ "\n📆 Exp: " ++ exp_text

/-- `handle_message` (lines 354-543) for a non-admin `user_id`:
reconciliation prelude, opportunistic name refresh (lines 363-367),
then the member flow (lines 477-543). -/
def handle_message_member (admins : List Int) (now : Nat) (user_id : Int)
    (text0 firstName : String) (http : HttpResp)
    (members0 : Ledger) (lastQ : List (Int × Nat)) (ud : UserData) : HandleResult :=
  let m2 := reconciled_ledger admins now members0
  let saves0 := reconcile_save_count admins now members0
  let text := pyStrip text0
  let nameRefresh : Ledger × Nat :=
    match alookup m2 user_id with
    | some info =>
      if firstName ≠ "" ∧ info.name ≠ firstName then
        (aset m2 user_id { info with name := firstName }, saves0 + 1)
      else (m2, saves0)
    | none => (m2, saves0)
  let m3 := nameRefresh.1
  let saves1 := nameRefresh.2
  match alookup m3 user_id with
  | none => ⟨m3, lastQ, ud, ["❌ Not an active member."], saves1⟩
  | some info =>
    let expired := isExpired now info
    if text = "Status" then
      ⟨m3, lastQ, ud, [member_status_text user_id firstName now info], saves1⟩
    else if text = "Help" then
      ⟨m3, lastQ, ud,
       ["Member Guide:\n• Mobile/Email → Run OSINT search\n• Status → See credits & expiry\n• Help → This guide"],
       saves1⟩
    else if text = "Mobile/Email" then
      if expired then ⟨m3, lastQ, ud, ["❌ Membership expired. Contact admin."], saves1⟩
      else ⟨m3, lastQ, ⟨true⟩, ["Enter Mobile Number or Email:"], saves1⟩
    else if ud.awaiting_query then
      if expired then ⟨m3, lastQ, ⟨false⟩, ["❌ Membership expired. Contact admin."], saves1⟩
      else if (match alookup lastQ user_id with
               | some last => decide (now - last < SEARCH_COOLDOWN_SECONDS)
               | none => false) then
        ⟨m3, lastQ, ud, ["⏳ Wait before next query."], saves1⟩
      else
        match clean_input text with
        | none => ⟨m3, lastQ, ud, ["❌ Invalid input."], saves1⟩
        | some _q =>
          let result := generate_report http
          let afterDebit : Ledger × Nat :=
            if user_id ∈ admins then (m3, saves1)
            else if result ≠ "" ∧ str_startsWith result "🚫" = false then
              match info.credit with
              | .inf => (m3, saves1)
              | .fin c =>
                (aset m3 user_id { info with credit := .fin (max (c - CREDIT_COST_PER_QUERY) 0) },
                 saves1 + 1)
            else (m3, saves1)
          ⟨afterDebit.1, aset lastQ user_id now, ⟨false⟩, [result], afterDebit.2⟩
    else ⟨m3, lastQ, ud, ["Choose option:"], saves1⟩

/-! ## Codec lemmas -/

theorem digitChar_props {d : Nat} (h : d < 10) :
    charVal (Nat.digitChar d) = d ∧ (Nat.digitChar d).isDigit = true := by
  interval_cases d <;> exact ⟨by decide, by decide⟩

theorem natToStrGo_spec :
    ∀ (fuel n : Nat), n < fuel →
      natToStrGo fuel n ≠ [] ∧ (natToStrGo fuel n).all Char.isDigit = true ∧
      ∀ init : Nat,
        (natToStrGo fuel n).foldl (fun a c => a * 10 + charVal c) init =
          init * 10 ^ (natToStrGo fuel n).length + n := by
  intro fuel
  induction fuel with
  | zero => intro n hn; omega
  | succ f ih =>
    intro n hn
    by_cases h : n < 10
    · refine ⟨by simp [natToStrGo, h], ?_, ?_⟩
      · simp [natToStrGo, h, (digitChar_props h).2]
      · intro init
        simp [natToStrGo, h, (digitChar_props h).1]
    · have hdiv : n / 10 < f := by
        have h1 : n / 10 < n := Nat.div_lt_self (by omega) (by omega)
        omega
      obtain ⟨hne, hdig, hfold⟩ := ih (n / 10) hdiv
      have hmod : n % 10 < 10 := Nat.mod_lt _ (by omega)
      refine ⟨?_, ?_, ?_⟩
      · simp [natToStrGo, h]
      · simp only [natToStrGo, if_neg h, List.all_append, hdig, Bool.true_and,
          List.all_cons, List.all_nil, Bool.and_true]
        exact (digitChar_props hmod).2
      · intro init
        simp only [natToStrGo, if_neg h, List.foldl_append, hfold, List.foldl_cons,
          List.foldl_nil, List.length_append, List.length_cons, List.length_nil,
          (digitChar_props hmod).1]
        have : 10 ^ (((natToStrGo f (n / 10)).length) + (0 + 1)) =
            10 ^ ((natToStrGo f (n / 10)).length) * 10 := by
          rw [pow_succ]
        rw [this]
        have := Nat.div_add_mod n 10
        ring_nf
        omega

theorem strToNatC_natToStr (n : Nat) : strToNatC (natToStr n) = some n := by
  obtain ⟨hne, hdig, hfold⟩ := natToStrGo_spec (n + 1) n (Nat.lt_succ_self n)
  unfold natToStr at *
  unfold strToNatC strValC
  rw [if_pos ⟨hne, hdig⟩, hfold 0]
  simp

theorem str_to_nat?_natRepr (n : Nat) : str_to_nat? (natRepr n) = some n := by
  show strToNatC (String.mk (natToStr n)).toList = some n
  rw [show (String.mk (natToStr n)).toList = natToStr n from rfl]
  exact strToNatC_natToStr n

theorem isDigit_ne_sign {c : Char} (h : c.isDigit = true) : c ≠ '-' ∧ c ≠ '+' := by
  constructor <;> · rintro rfl; simp at h

theorem str_to_int?_intRepr (i : Int) : str_to_int? (intRepr i) = some i := by
  show strToIntC (String.mk (intToStr i)).toList = some i
  rw [show (String.mk (intToStr i)).toList = intToStr i from rfl]
  unfold intToStr
  by_cases h : i < 0
  · rw [if_pos h]
    show strToIntC ('-' :: natToStr i.natAbs) = some i
    simp only [strToIntC, strToNatC_natToStr, if_true]
    have hval : -((i.natAbs : Int)) = i := by omega
    simp [hval]
    rw [abs_of_neg h, neg_neg]
  · rw [if_neg h]
    obtain ⟨hne, hdig, -⟩ := natToStrGo_spec (i.natAbs + 1) i.natAbs (Nat.lt_succ_self _)
    have hne' : natToStr i.natAbs ≠ [] := hne
    obtain ⟨c, rest, hcons⟩ := List.exists_cons_of_ne_nil hne'
    have hcd : c.isDigit = true := by
      have hdig' : (natToStr i.natAbs).all Char.isDigit = true := hdig
      have := List.all_eq_true.mp hdig' c (by rw [hcons]; exact List.mem_cons_self _ _)
      simpa using this
    obtain ⟨hm, hp⟩ := isDigit_ne_sign hcd
    rw [hcons]
    simp only [strToIntC]
    rw [if_neg hm, if_neg hp, ← hcons, strToNatC_natToStr]
    have hval : ((i.natAbs : Int)) = i := by omega
    simp [hval]


/-! ## Association-list (dict) lemmas -/

theorem alookup_nil {κ α : Type} [DecidableEq κ] (k : κ) :
    alookup ([] : List (κ × α)) k = none := rfl

theorem alookup_cons {κ α : Type} [DecidableEq κ] (e : κ × α) (m : List (κ × α)) (k : κ) :
    alookup (e :: m) k = if e.1 = k then some e.2 else alookup m k := by
  by_cases h : e.1 = k <;> simp [alookup, List.find?, h]

theorem alookup_append {κ α : Type} [DecidableEq κ] (m l : List (κ × α)) (k : κ) :
    alookup (m ++ l) k =
      match alookup m k with
      | some v => some v
      | none => alookup l k := by
  induction m with
  | nil => simp [alookup_nil]
  | cons e rest ih =>
    rw [List.cons_append, alookup_cons, alookup_cons]
    by_cases h : e.1 = k
    · simp [h]
    · simp only [if_neg h]
      exact ih

theorem alookup_eq_none_of_not_mem_keys {κ α : Type} [DecidableEq κ]
    {m : List (κ × α)} {k : κ} (h : k ∉ m.map Prod.fst) : alookup m k = none := by
  induction m with
  | nil => rfl
  | cons e rest ih =>
    rw [alookup_cons]
    simp only [List.map_cons, List.mem_cons] at h
    push_neg at h
    rw [if_neg (fun he => h.1 he.symm)]
    exact ih h.2

theorem mem_keys_of_alookup_some {κ α : Type} [DecidableEq κ]
    {m : List (κ × α)} {k : κ} {v : α} (h : alookup m k = some v) :
    k ∈ m.map Prod.fst := by
  by_contra hk
  rw [alookup_eq_none_of_not_mem_keys hk] at h
  exact Option.noConfusion h

theorem any_key_iff_mem_keys {κ α : Type} [DecidableEq κ] (m : List (κ × α)) (k : κ) :
    m.any (fun e => decide (e.1 = k)) = true ↔ k ∈ m.map Prod.fst := by
  rw [List.any_eq_true]
  constructor
  · rintro ⟨e, he, hk⟩
    exact List.mem_map.mpr ⟨e, he, (of_decide_eq_true hk).symm ▸ rfl⟩
  · rintro hk
    obtain ⟨e, he, hfst⟩ := List.mem_map.mp hk
    exact ⟨e, he, decide_eq_true hfst⟩

theorem alookup_replace_self {κ α : Type} [DecidableEq κ]
    {m : List (κ × α)} {k : κ} (v : α) (h : k ∈ m.map Prod.fst) :
    alookup (m.map (fun e => if e.1 = k then (k, v) else e)) k = some v := by
  induction m with
  | nil => simp at h
  | cons e rest ih =>
    simp only [List.map_cons]
    by_cases he : e.1 = k
    · rw [if_pos he, alookup_cons, if_pos rfl]
    · rw [if_neg he, alookup_cons, if_neg he]
      simp only [List.map_cons, List.mem_cons] at h
      exact ih (h.resolve_left (fun hk => he hk.symm))

theorem alookup_replace_ne {κ α : Type} [DecidableEq κ]
    (m : List (κ × α)) {k x : κ} (v : α) (hx : x ≠ k) :
    alookup (m.map (fun e => if e.1 = k then (k, v) else e)) x = alookup m x := by
  induction m with
  | nil => rfl
  | cons e rest ih =>
    simp only [List.map_cons]
    by_cases he : e.1 = k
    · rw [if_pos he, alookup_cons, alookup_cons, if_neg (fun hk => hx hk.symm),
        if_neg (fun hex => hx (he ▸ hex).symm)]
      exact ih
    · rw [if_neg he, alookup_cons, alookup_cons]
      by_cases hex : e.1 = x
      · rw [if_pos hex, if_pos hex]
      · rw [if_neg hex, if_neg hex]
        exact ih

theorem aset_of_not_mem_keys {κ α : Type} [DecidableEq κ]
    {m : List (κ × α)} {k : κ} (v : α) (h : k ∉ m.map Prod.fst) :
    aset m k v = m ++ [(k, v)] := by
  unfold aset
  rw [if_neg (fun hany => h ((any_key_iff_mem_keys m k).mp hany))]

theorem alookup_aset_self {κ α : Type} [DecidableEq κ] (m : List (κ × α)) (k : κ) (v : α) :
    alookup (aset m k v) k = some v := by
  by_cases hk : k ∈ m.map Prod.fst
  · unfold aset
    rw [if_pos ((any_key_iff_mem_keys m k).mpr hk)]
    exact alookup_replace_self v hk
  · rw [aset_of_not_mem_keys v hk, alookup_append, alookup_eq_none_of_not_mem_keys hk]
    simp [alookup_cons]

theorem alookup_aset_ne {κ α : Type} [DecidableEq κ] (m : List (κ × α)) {k x : κ} (v : α)
    (hx : x ≠ k) : alookup (aset m k v) x = alookup m x := by
  by_cases hk : k ∈ m.map Prod.fst
  · unfold aset
    rw [if_pos ((any_key_iff_mem_keys m k).mpr hk)]
    exact alookup_replace_ne m v hx
  · rw [aset_of_not_mem_keys v hk, alookup_append]
    cases hlm : alookup m x with
    | some w => rfl
    | none =>
      rw [alookup_cons, if_neg (fun hkx : k = x => hx hkx.symm), alookup_nil]

theorem keys_aset_nodup {κ α : Type} [DecidableEq κ] {m : List (κ × α)} (k : κ) (v : α)
    (h : (m.map Prod.fst).Nodup) : ((aset m k v).map Prod.fst).Nodup := by
  by_cases hk : k ∈ m.map Prod.fst
  · unfold aset
    rw [if_pos ((any_key_iff_mem_keys m k).mpr hk)]
    have hkeys : (m.map (fun e => if e.1 = k then (k, v) else e)).map Prod.fst
        = m.map Prod.fst := by
      rw [List.map_map]
      apply List.map_congr_left
      intro e _
      by_cases h' : e.1 = k
      · simp only [Function.comp_apply, if_pos h']
        exact h'.symm
      · simp [Function.comp_apply, if_neg h']
    rw [hkeys]
    exact h
  · rw [aset_of_not_mem_keys v hk]
    simp only [List.map_append, List.map_cons, List.map_nil]
    rw [List.nodup_append]
    refine ⟨h, List.nodup_singleton k, ?_⟩
    intro a ha
    simp only [List.mem_singleton]
    exact fun hak => hk (hak ▸ ha)

theorem keys_aset_mem {κ α : Type} [DecidableEq κ] {m : List (κ × α)} {k x : κ} {v : α}
    (hx : x ∈ (aset m k v).map Prod.fst) : x ∈ m.map Prod.fst ∨ x = k := by
  unfold aset at hx
  by_cases hany : m.any (fun e => decide (e.1 = k)) = true
  · rw [if_pos hany] at hx
    obtain ⟨e, he, hfst⟩ := List.mem_map.mp hx
    obtain ⟨e', he', hrepl⟩ := List.mem_map.mp he
    by_cases h' : e'.1 = k
    · right
      rw [← hfst, ← hrepl, if_pos h']
    · left
      rw [← hfst, ← hrepl, if_neg h']
      exact List.mem_map.mpr ⟨e', he', rfl⟩
  · rw [if_neg hany] at hx
    simp only [List.map_append, List.mem_append, List.map_cons, List.map_nil,
      List.mem_singleton] at hx
    exact hx

theorem alookup_filter_keep {κ α : Type} [DecidableEq κ] (p : κ × α → Bool)
    {m : List (κ × α)} {k : κ} {v : α} (h : alookup m k = some v)
    (hp : p (k, v) = true) : alookup (m.filter p) k = some v := by
  induction m with
  | nil => simp [alookup_nil] at h
  | cons e rest ih =>
    rw [alookup_cons] at h
    by_cases he : e.1 = k
    · rw [if_pos he] at h
      have hev : e = (k, v) := Prod.ext he (Option.some_injective _ h)
      rw [List.filter_cons, hev, if_pos hp, alookup_cons, if_pos rfl]
    · rw [if_neg he] at h
      rw [List.filter_cons]
      by_cases hpe : p e = true
      · rw [if_pos hpe, alookup_cons, if_neg he]
        exact ih h
      · rw [if_neg hpe]
        exact ih h

theorem alookup_filter_none {κ α : Type} [DecidableEq κ] (p : κ × α → Bool)
    {m : List (κ × α)} {k : κ} (h : alookup m k = none) :
    alookup (m.filter p) k = none := by
  induction m with
  | nil => exact h
  | cons e rest ih =>
    rw [alookup_cons] at h
    by_cases he : e.1 = k
    · rw [if_pos he] at h
      exact Option.noConfusion h
    · rw [if_neg he] at h
      rw [List.filter_cons]
      by_cases hpe : p e = true
      · rw [if_pos hpe, alookup_cons, if_neg he]
        exact ih h
      · rw [if_neg hpe]
        exact ih h

theorem alookup_filter_drop {κ α : Type} [DecidableEq κ] (p : κ × α → Bool)
    {m : List (κ × α)} (hnd : (m.map Prod.fst).Nodup) {k : κ} {v : α}
    (h : alookup m k = some v) (hp : p (k, v) = false) :
    alookup (m.filter p) k = none := by
  induction m with
  | nil => simp [alookup_nil] at h
  | cons e rest ih =>
    simp only [List.map_cons, List.nodup_cons] at hnd
    rw [alookup_cons] at h
    by_cases he : e.1 = k
    · rw [if_pos he] at h
      have hev : e = (k, v) := Prod.ext he (Option.some_injective _ h)
      rw [List.filter_cons, hev, if_neg (by simp [hp])]
      apply alookup_filter_none
      apply alookup_eq_none_of_not_mem_keys
      rw [← he]
      subst hev
      exact hnd.1
    · rw [if_neg he] at h
      rw [List.filter_cons]
      by_cases hpe : p e = true
      · rw [if_pos hpe, alookup_cons, if_neg he]
        exact ih hnd.2 h
      · rw [if_neg hpe]
        exact ih hnd.2 h

theorem keys_filter_nodup {κ α : Type} [DecidableEq κ] (p : κ × α → Bool)
    {m : List (κ × α)} (h : (m.map Prod.fst).Nodup) :
    ((m.filter p).map Prod.fst).Nodup :=
  h.sublist ((List.filter_sublist m).map Prod.fst)

/-! ## Reconciliation lemmas -/

theorem ensure_step_lookup_self (acc : Ledger × Bool) (aid : Int) :
    ∃ info, alookup (ensure_step acc aid).1 aid = some info ∧
      info.expiry = dtMax ∧ info.credit = Credit.inf := by
  unfold ensure_step
  cases hcur : alookup acc.1 aid with
  | none =>
    exact ⟨⟨dtMax, Credit.inf, ""⟩, alookup_aset_self _ _ _, rfl, rfl⟩
  | some cur =>
    dsimp only
    by_cases hupd : cur.expiry ≠ dtMax ∨ cur.credit ≠ Credit.inf
    · rw [if_pos hupd]
      exact ⟨⟨dtMax, Credit.inf, cur.name⟩, alookup_aset_self _ _ _, rfl, rfl⟩
    · rw [if_neg hupd]
      push_neg at hupd
      exact ⟨cur, hcur, hupd.1, hupd.2⟩

theorem ensure_step_lookup_ne (acc : Ledger × Bool) {aid x : Int} (hx : x ≠ aid) :
    alookup (ensure_step acc aid).1 x = alookup acc.1 x := by
  unfold ensure_step
  cases hcur : alookup acc.1 aid with
  | none => exact alookup_aset_ne _ _ hx
  | some cur =>
    dsimp only
    by_cases hupd : cur.expiry ≠ dtMax ∨ cur.credit ≠ Credit.inf
    · rw [if_pos hupd]
      exact alookup_aset_ne _ _ hx
    · rw [if_neg hupd]

theorem ensure_step_keys_nodup (acc : Ledger × Bool) (aid : Int)
    (h : (acc.1.map Prod.fst).Nodup) : ((ensure_step acc aid).1.map Prod.fst).Nodup := by
  unfold ensure_step
  cases hcur : alookup acc.1 aid with
  | none => exact keys_aset_nodup _ _ h
  | some cur =>
    dsimp only
    by_cases hupd : cur.expiry ≠ dtMax ∨ cur.credit ≠ Credit.inf
    · rw [if_pos hupd]
      exact keys_aset_nodup _ _ h
    · rw [if_neg hupd]
      exact h

theorem ensure_foldl_lookup_not_mem (admins : List Int) :
    ∀ (acc : Ledger × Bool) {x : Int}, x ∉ admins →
      alookup (admins.foldl ensure_step acc).1 x = alookup acc.1 x := by
  induction admins with
  | nil => intro acc x _; rfl
  | cons aid rest ih =>
    intro acc x hx
    simp only [List.mem_cons, not_or] at hx
    rw [List.foldl_cons, ih _ hx.2, ensure_step_lookup_ne _ hx.1]

theorem ensure_foldl_lookup_mem (admins : List Int) (hnd : admins.Nodup) :
    ∀ (acc : Ledger × Bool) {a : Int}, a ∈ admins →
      ∃ info, alookup (admins.foldl ensure_step acc).1 a = some info ∧
        info.expiry = dtMax ∧ info.credit = Credit.inf := by
  induction admins with
  | nil => intro acc a ha; simp at ha
  | cons aid rest ih =>
    intro acc a ha
    rw [List.nodup_cons] at hnd
    rw [List.foldl_cons]
    rcases List.mem_cons.mp ha with rfl | hmem
    · obtain ⟨info, hl, he, hc⟩ := ensure_step_lookup_self acc a
      refine ⟨info, ?_, he, hc⟩
      rw [ensure_foldl_lookup_not_mem rest _ hnd.1, hl]
    · exact ih hnd.2 _ hmem

theorem ensure_foldl_keys_nodup (admins : List Int) :
    ∀ (acc : Ledger × Bool), (acc.1.map Prod.fst).Nodup →
      ((admins.foldl ensure_step acc).1.map Prod.fst).Nodup := by
  induction admins with
  | nil => intro acc h; exact h
  | cons aid rest ih =>
    intro acc h
    rw [List.foldl_cons]
    exact ih _ (ensure_step_keys_nodup acc aid h)

theorem ensure_foldl_of_all_lifetime (admins : List Int) :
    ∀ (m : Ledger) (b : Bool),
      (∀ a ∈ admins, ∃ info, alookup m a = some info ∧
        info.expiry = dtMax ∧ info.credit = Credit.inf) →
      admins.foldl ensure_step (m, b) = (m, b) := by
  induction admins with
  | nil => intro m b _; rfl
  | cons aid rest ih =>
    intro m b hall
    rw [List.foldl_cons]
    obtain ⟨info, hl, he, hc⟩ := hall aid (List.mem_cons_self _ _)
    have hstep : ensure_step (m, b) aid = (m, b) := by
      unfold ensure_step
      rw [hl]
      dsimp only
      rw [if_neg (by push_neg; exact ⟨he, hc⟩)]
    rw [hstep]
    exact ih m b (fun a ha => hall a (List.mem_cons_of_mem _ ha))

theorem ensure_lookup_admin {admins : List Int} (hnd : admins.Nodup) (m : Ledger)
    {a : Int} (ha : a ∈ admins) :
    ∃ info, alookup (ensure_lifetime_admins admins m).1 a = some info ∧
      info.expiry = dtMax ∧ info.credit = Credit.inf :=
  ensure_foldl_lookup_mem admins hnd (m, false) ha

theorem ensure_lookup_not_admin {admins : List Int} (m : Ledger) {x : Int}
    (hx : x ∉ admins) :
    alookup (ensure_lifetime_admins admins m).1 x = alookup m x :=
  ensure_foldl_lookup_not_mem admins (m, false) hx

theorem cleanup_lookup_keep {admins : List Int} {now : Nat} {m : Ledger} {x : Int}
    {info : MemberInfo} (h : alookup m x = some info)
    (hk : keepMember admins now (x, info) = true) :
    alookup (cleanup_expired_members admins now m).1 x = some info :=
  alookup_filter_keep _ h hk

theorem cleanup_lookup_drop {admins : List Int} {now : Nat} {m : Ledger}
    (hnd : (m.map Prod.fst).Nodup) {x : Int} {info : MemberInfo}
    (h : alookup m x = some info)
    (hk : keepMember admins now (x, info) = false) :
    alookup (cleanup_expired_members admins now m).1 x = none :=
  alookup_filter_drop _ hnd h hk

theorem keep_of_admin {admins : List Int} {now : Nat} {x : Int} {info : MemberInfo}
    (hx : x ∈ admins) : keepMember admins now (x, info) = true := by
  unfold keepMember
  simp [hx]

theorem keep_of_not_expired {admins : List Int} {now : Nat} {x : Int} {info : MemberInfo}
    (h : isExpired now info = false) : keepMember admins now (x, info) = true := by
  unfold keepMember
  simp [h]

theorem not_keep_of_expired {admins : List Int} {now : Nat} {x : Int} {info : MemberInfo}
    (hx : x ∉ admins) (h : isExpired now info = true) :
    keepMember admins now (x, info) = false := by
  unfold keepMember
  simp [hx, h]

theorem reconciled_lookup_admin {admins : List Int} (hnd : admins.Nodup) (now : Nat)
    (m : Ledger) {a : Int} (ha : a ∈ admins) :
    ∃ info, alookup (reconciled_ledger admins now m) a = some info ∧
      info.expiry = dtMax ∧ info.credit = Credit.inf := by
  obtain ⟨info, hl, he, hc⟩ := ensure_lookup_admin hnd m ha
  exact ⟨info, cleanup_lookup_keep hl (keep_of_admin ha), he, hc⟩

theorem reconciled_lookup_live {admins : List Int} {now : Nat} {m : Ledger} {x : Int}
    {info : MemberInfo} (hx : x ∉ admins) (h : alookup m x = some info)
    (hexp : isExpired now info = false) :
    alookup (reconciled_ledger admins now m) x = some info := by
  unfold reconciled_ledger reload_and_reconcile
  exact cleanup_lookup_keep
    (by rw [ensure_lookup_not_admin m hx]; exact h)
    (keep_of_not_expired hexp)

theorem reconciled_lookup_reaped {admins : List Int} {now : Nat} {m : Ledger}
    (hnd : (m.map Prod.fst).Nodup) {x : Int} {info : MemberInfo}
    (hx : x ∉ admins) (h : alookup m x = some info)
    (hexp : isExpired now info = true) :
    alookup (reconciled_ledger admins now m) x = none := by
  unfold reconciled_ledger reload_and_reconcile
  exact cleanup_lookup_drop (ensure_foldl_keys_nodup admins (m, false) hnd)
    (by rw [ensure_foldl_lookup_not_mem admins (m, false) hx]; exact h)
    (not_keep_of_expired hx hexp)

theorem reconciled_keys_nodup {admins : List Int} {now : Nat} {m : Ledger}
    (hnd : (m.map Prod.fst).Nodup) :
    ((reconciled_ledger admins now m).map Prod.fst).Nodup :=
  keys_filter_nodup _ (ensure_foldl_keys_nodup admins (m, false) hnd)

/-! ## Claims C1, C2, C5 -/

/-- C1: for every user id in the configured admin-id set, after
reconciliation (`ensure_lifetime_admins` run during load, followed by the
reaping pass that skips admins) that user's ledger record exists and has
the infinite sentinels — expiry equal to the maximal timestamp and
infinite credit — regardless of what the store previously held for that
id. -/
theorem admin_ids_lifetime_after_reconcile (admins : List Int) (now : Nat) (m : Ledger)
    (hnd : admins.Nodup) {a : Int} (ha : a ∈ admins) :
    ∃ info, alookup (reload_and_reconcile admins now m).1 a = some info ∧
      info.expiry = dtMax ∧ info.credit = Credit.inf :=
  reconciled_lookup_admin hnd now m ha

/-- Witness for C1: a stored admin record with a stale expiry and zero
credit is forced back to the sentinels. -/
theorem admin_ids_lifetime_after_reconcile_witness :
    ∃ info, alookup (reload_and_reconcile [7] 0 [(7, ⟨5, Credit.fin 0, "x"⟩)]).1 7
        = some info ∧ info.expiry = dtMax ∧ info.credit = Credit.inf :=
  admin_ids_lifetime_after_reconcile [7] 0 [(7, ⟨5, Credit.fin 0, "x"⟩)]
    (by decide) (by decide)

/-- C2: for every non-admin ledger record, if its expiry is at or before
the current time, or its credit is finite and ≤ 0, then after
`cleanup_expired_members` the record is absent from the ledger; every
other non-admin record is untouched. -/
theorem cleanup_reaps_exactly_expired (admins : List Int) (now : Nat) (m : Ledger)
    (hnd : (m.map Prod.fst).Nodup) {uid : Int} {info : MemberInfo}
    (hadm : uid ∉ admins) (h : alookup m uid = some info) :
    alookup (cleanup_expired_members admins now m).1 uid =
      (if isExpired now info then none else some info) := by
  by_cases hexp : isExpired now info = true
  · rw [if_pos hexp]
    exact cleanup_lookup_drop hnd h (not_keep_of_expired hadm hexp)
  · rw [if_neg (by simpa using hexp)]
    exact cleanup_lookup_keep h
      (keep_of_not_expired (Bool.not_eq_true _ ▸ hexp))

/-- Witness for C2: with `now = 100`, a record expiring at 50 is reaped
(and the theorem's `if` evaluates accordingly). -/
theorem cleanup_reaps_exactly_expired_witness :
    alookup (cleanup_expired_members [] 100
        [(5, ⟨50, Credit.fin 3, ""⟩), (6, ⟨200, Credit.fin 2, ""⟩)]).1 5 =
      (if isExpired 100 ⟨50, Credit.fin 3, ""⟩ then none else some ⟨50, Credit.fin 3, ""⟩) :=
  cleanup_reaps_exactly_expired [] 100
    [(5, ⟨50, Credit.fin 3, ""⟩), (6, ⟨200, Credit.fin 2, ""⟩)]
    (by decide) (by decide) (by decide)

/-- C5: the reconciliation pass (admin enforcement followed by
expiry/credit reaping) is idempotent: running it a second time at the
same instant with no intervening mutation leaves the ledger unchanged
and triggers no save on the second run (both write flags are false). -/
theorem reconcile_idempotent_no_second_save (admins : List Int) (now : Nat) (m : Ledger)
    (hnd : admins.Nodup) :
    reload_and_reconcile admins now (reload_and_reconcile admins now m).1 =
      ((reload_and_reconcile admins now m).1, false, false) := by
  have hall : ∀ a ∈ admins, ∃ info,
      alookup (reload_and_reconcile admins now m).1 a = some info ∧
        info.expiry = dtMax ∧ info.credit = Credit.inf :=
    fun a ha => reconciled_lookup_admin hnd now m ha
  have hens : ensure_lifetime_admins admins (reload_and_reconcile admins now m).1 =
      ((reload_and_reconcile admins now m).1, false) :=
    ensure_foldl_of_all_lifetime admins _ false hall
  have hkeep : ∀ e ∈ (reload_and_reconcile admins now m).1,
      keepMember admins now e = true := by
    intro e he
    exact List.of_mem_filter (show e ∈ List.filter (keepMember admins now) _ from he)
  have hcl : cleanup_expired_members admins now (reload_and_reconcile admins now m).1 =
      ((reload_and_reconcile admins now m).1, false) := by
    unfold cleanup_expired_members
    rw [List.filter_eq_self.mpr (fun a ha => hkeep a ha)]
    rw [List.any_eq_false.mpr (fun e he => by simp [hkeep e he])]
  show ((cleanup_expired_members admins now (ensure_lifetime_admins admins _).1).1, _, _) = _
  rw [hens, hcl]

/-- Witness for C5: a ledger with one expired member and one admin id. -/
theorem reconcile_idempotent_no_second_save_witness :
    reload_and_reconcile [7] 100
        (reload_and_reconcile [7] 100 [(5, ⟨50, Credit.fin 0, "z"⟩)]).1 =
      ((reload_and_reconcile [7] 100 [(5, ⟨50, Credit.fin 0, "z"⟩)]).1, false, false) :=
  reconcile_idempotent_no_second_save [7] 100 [(5, ⟨50, Credit.fin 0, "z"⟩)] (by decide)

/-! ## Persistence lemmas and claims C6, C10 -/

theorem load_step_save_entry (now : Nat) (tmp : Ledger) (uid : Int) (info : MemberInfo) :
    load_step now tmp (intRepr uid,
      { expiry := some (.str (_dt_to_iso info.expiry)),
        credit := some (match info.credit with
          | .inf => RawVal.str "inf"
          | .fin n => RawVal.int n),
        name := some info.name }) = aset tmp uid info := by
  unfold load_step
  rw [str_to_int?_intRepr]
  dsimp only
  have hexp : _iso_to_dt (_dt_to_iso info.expiry) now = info.expiry := by
    unfold _iso_to_dt _dt_to_iso
    rw [str_to_nat?_natRepr]
  rw [hexp]
  cases hc : info.credit with
  | inf =>
    dsimp only
    rw [if_pos rfl]
    congr 1
    rw [← hc]
    cases info
    rfl
  | fin n =>
    dsimp only
    congr 1
    rw [← hc]
    cases info
    rfl

theorem load_foldl_save (now : Nat) (m : Ledger) :
    ∀ acc : Ledger, (∀ i ∈ m.map Prod.fst, i ∉ acc.map Prod.fst) →
      (m.map Prod.fst).Nodup →
      (save_members m).foldl (load_step now) acc = acc ++ m := by
  induction m with
  | nil => intro acc _ _; simp [save_members]
  | cons e rest ih =>
    intro acc hdisj hnd
    obtain ⟨i, info⟩ := e
    simp only [List.map_cons, List.nodup_cons] at hnd
    have hia : i ∉ acc.map Prod.fst :=
      hdisj i (by simp)
    show List.foldl (load_step now) acc
        (save_members ((i, info) :: rest)) = acc ++ (i, info) :: rest
    rw [show save_members ((i, info) :: rest) =
      (intRepr i,
        { expiry := some (.str (_dt_to_iso info.expiry)),
          credit := some (match info.credit with
            | .inf => RawVal.str "inf"
            | .fin n => RawVal.int n),
          name := some info.name }) :: save_members rest from rfl]
    rw [List.foldl_cons, load_step_save_entry, aset_of_not_mem_keys info hia]
    rw [ih (acc ++ [(i, info)]) ?_ hnd.2]
    · rw [List.append_assoc]
      rfl
    · intro j hj
      simp only [List.map_append, List.mem_append, List.map_cons, List.map_nil,
        List.mem_singleton, not_or]
      constructor
      · exact hdisj j (by simp [hj])
      · intro hji
        exact hnd.1 (hji ▸ hj)

/-- C6: for every in-memory ledger (with the distinct keys every Python
dict has), saving it and then loading it back reproduces the same
logical ledger: each user id maps to the same expiry timestamp, the same
credit (the infinite-credit sentinel surviving as infinite via the
`"inf"` string encoding), and the same display name. -/
theorem save_then_load_round_trip (m : Ledger) (now : Nat)
    (hnd : (m.map Prod.fst).Nodup) :
    load_members (.dict (save_members m)) now = m := by
  show (save_members m).foldl (load_step now) [] = m
  rw [load_foldl_save now m [] (by simp) hnd]
  rfl

/-- Witness for C6: a two-record ledger with an infinite-credit record
and a negative user id survives the round trip. -/
theorem save_then_load_round_trip_witness :
    load_members (.dict (save_members
        [(5, ⟨1000, Credit.inf, "A"⟩), (-3, ⟨42, Credit.fin 7, "B"⟩)])) 99 =
      [(5, ⟨1000, Credit.inf, "A"⟩), (-3, ⟨42, Credit.fin 7, "B"⟩)] :=
  save_then_load_round_trip [(5, ⟨1000, Credit.inf, "A"⟩), (-3, ⟨42, Credit.fin 7, "B"⟩)]
    99 (by decide)

theorem load_foldl_keys (now : Nat) (entries : List (String × RawInfo)) :
    ∀ (acc : Ledger) (uid : Int),
      uid ∈ (entries.foldl (load_step now) acc).map Prod.fst →
      uid ∈ acc.map Prod.fst ∨ ∃ p, p ∈ entries ∧ str_to_int? p.1 = some uid := by
  induction entries with
  | nil => intro acc uid h; exact Or.inl h
  | cons e rest ih =>
    intro acc uid h
    rw [List.foldl_cons] at h
    rcases ih (load_step now acc e) uid h with hacc | ⟨p, hp, hpu⟩
    · unfold load_step at hacc
      cases hparse : str_to_int? e.1 with
      | none =>
        rw [hparse] at hacc
        exact Or.inl hacc
      | some u =>
        rw [hparse] at hacc
        rcases keys_aset_mem hacc with hmem | rfl
        · exact Or.inl hmem
        · exact Or.inr ⟨e, List.mem_cons_self _ _, hparse⟩
    · exact Or.inr ⟨p, List.mem_cons_of_mem _ hp, hpu⟩

/-- C10: if the members file is missing, fails to parse as JSON, or any
error occurs while reading it, loading yields the empty ledger rather
than raising; and any entry whose key is not an integer string is
silently dropped, so every key of the loaded ledger is the integer value
of some raw key. -/
theorem load_members_error_empty_and_integer_keys (now : Nat)
    (entries : List (String × RawInfo)) (uid : Int) :
    load_members RawFile.missing now = [] ∧
    load_members RawFile.unreadable now = [] ∧
    (uid ∈ (load_members (.dict entries) now).map Prod.fst →
      ∃ p, p ∈ entries ∧ str_to_int? p.1 = some uid) := by
  refine ⟨rfl, rfl, fun h => ?_⟩
  rcases load_foldl_keys now entries [] uid h with hacc | hfound
  · simp at hacc
  · exact hfound

/-- Witness for C10: in a file with keys `"12"` and `"x"`, a loaded key
12 traces back to the integer-string raw key. -/
theorem load_members_error_empty_and_integer_keys_witness :
    load_members RawFile.unreadable 0 = [] ∧
    ∃ p, p ∈ [(("12" : String), (⟨none, none, none⟩ : RawInfo)),
              (("x" : String), (⟨none, none, none⟩ : RawInfo))] ∧
      str_to_int? p.1 = some 12 :=
  ⟨(load_members_error_empty_and_integer_keys 0 [] 0).2.1,
   (load_members_error_empty_and_integer_keys 0
      [("12", ⟨none, none, none⟩), ("x", ⟨none, none, none⟩)] 12).2.2 (by decide)⟩

/-! ## Claim C8: normalizer examples -/

/-- C8: the query normalizer, as a pure function on raw text, maps
`"9876543210"` to `"+919876543210"`, maps `"+91 9876 543210"` to
`"+919876543210"` (spaces — and likewise hyphens, dots and commas, as the
final conjunct shows — stripped), accepts `"a@b.co"` unchanged as an
e-mail, and rejects `"12345"`. -/
theorem clean_input_normalization_examples :
    clean_input "9876543210" = some "+919876543210" ∧
    clean_input "+91 9876 543210" = some "+919876543210" ∧
    clean_input "a@b.co" = some "a@b.co" ∧
    clean_input "12345" = none ∧
    clean_input "+91-98.76,543 210" = some "+919876543210" := by
  refine ⟨?_, ?_, ?_, ?_, ?_⟩ <;> decide

/-! ## Claim C9: formatter rendering order and omissions -/

theorem foldl_append_toList {α : Type} (f : α → Option String)
    (step : List String → α → List String)
    (hstep : ∀ ls x, step ls x = ls ++ (f x).toList) :
    ∀ (xs : List α) (init : List String),
      xs.foldl step init = init ++ xs.filterMap f := by
  intro xs
  induction xs with
  | nil => intro init; simp
  | cons x rest ih =>
    intro init
    rw [List.foldl_cons, hstep, ih, List.filterMap_cons]
    cases hf : f x with
    | none => simp
    | some l => simp

theorem append_line_eq (ls : List String) (label : String) (val : Option String) :
    append_line ls label val = ls ++ (renderLine label val).toList := by
  unfold append_line renderLine renderVal
  cases val with
  | none => simp
  | some v =>
    dsimp only
    by_cases h : pyStrip v = "" ∨ pyLower (pyStrip v) = "null"
    · rw [if_pos h, if_pos h]
      simp
    · rw [if_neg h, if_neg h]
      simp

/-- C9: for every result record, the formatter renders known fields
first in the fixed order of the static priority table, then all
unrecognized fields in their original encounter order, and omits any
field whose value is absent, the empty string, whitespace-only, or the
literal null marker — i.e. `format_entry` coincides with the
order-and-omission description `format_entry_spec`. -/
theorem format_entry_matches_ordered_spec (entry : EntryRec) (idx : Nat) :
    format_entry entry idx = format_entry_spec entry idx := by
  unfold format_entry format_entry_spec
  dsimp only
  rw [foldl_append_toList
    (fun kv => if (alookup KEY_EMOJI_MAP kv.1).isSome then none
               else renderLine kv.1 kv.2)
    _ ?hstep2]
  case hstep2 =>
    intro ls kv
    by_cases h : (alookup KEY_EMOJI_MAP kv.1).isSome = true
    · simp [h]
    · simp only [Bool.not_eq_true] at h
      simp [h, append_line_eq]
  rw [foldl_append_toList
    (fun kl => (alookup entry kl.1).bind (fun v => renderLine kl.2 v))
    _ ?hstep1]
  case hstep1 =>
    intro ls kl
    cases hv : alookup entry kl.1 with
    | none => simp [hv]
    | some v => simp [hv, append_line_eq]
  rw [List.append_assoc]
  rfl

/-! ## Report-message lemmas -/

theorem isPrefixOf_append_left :
    ∀ (p a b : List Char), p.isPrefixOf a = true → p.isPrefixOf (a ++ b) = true := by
  intro p
  induction p with
  | nil => intro a b _; simp [List.isPrefixOf]
  | cons c p' ih =>
    intro a b h
    cases a with
    | nil => simp [List.isPrefixOf] at h
    | cons c' a' =>
      simp only [List.isPrefixOf, Bool.and_eq_true] at h ⊢
      exact ⟨h.1, ih a' b h.2⟩

theorem toList_append (a b : String) : (a ++ b).toList = a.toList ++ b.toList := by
  cases a
  cases b
  rfl

theorem str_startsWith_append (a b p : String) (h : str_startsWith a p = true) :
    str_startsWith (a ++ b) p = true := by
  unfold str_startsWith at h ⊢
  rw [toList_append]
  exact isPrefixOf_append_left _ _ _ h

/-- Every lookup-failure outcome is reported by one of the three
server-problem messages, and every such message carries the `🚫`
marker that blocks the credit debit. -/
theorem generate_report_failure (r : HttpResp) (h : isLookupFailure r = true) :
    isServerFailureMessage (generate_report r) = true ∧
    str_startsWith (generate_report r) "🚫" = true := by
  cases r with
  | timeout => exact ⟨by decide, by decide⟩
  | reply status body =>
    unfold generate_report
    dsimp only
    by_cases h400 : 400 ≤ status
    · rw [if_pos h400]
      exact ⟨by decide, by decide⟩
    · rw [if_neg h400]
      by_cases h200 : status = 200
      · subst h200
        rw [if_neg (by simp)]
        unfold isLookupFailure at h
        simp only [ne_eq, decide_not] at h
        cases body with
        | badJson => exact ⟨by decide, by decide⟩
        | parsed data =>
          cases data with
          | emptyOrNoList => simp at h
          | malformedList => exact ⟨by decide, by decide⟩
          | listOf blocks => simp at h
      · rw [if_pos h200]
        constructor
        · unfold isServerFailureMessage
          have : str_startsWith ("🚫 Server Error: HTTP " ++ natRepr status)
              "🚫 Server Error: HTTP " = true :=
            str_startsWith_append _ _ _ (by decide)
          rw [this]
          simp
        · exact str_startsWith_append _ _ _ (by decide)

/-! ## Symbolic execution of the accepted-query path -/

/-- Master run lemma: a non-admin member with a live, unexpired record,
no pending cooldown and a normalizer-accepted message, in the
AwaitingQuery state, gets exactly the generated report, drops back to
Idle, stamps the cooldown, and is debited one credit exactly when the
report is a non-empty non-`🚫` result and the credit is finite. -/
theorem handle_accepted_query_run (admins : List Int) (now : Nat) (uid : Int)
    (text : String) (http : HttpResp) (members : Ledger) (lastQ : List (Int × Nat))
    (info : MemberInfo)
    (hadm : uid ∉ admins)
    (hm : alookup members uid = some info)
    (hexp : isExpired now info = false)
    (hcool : alookup lastQ uid = none)
    (hq : (clean_input (pyStrip text)).isSome = true) :
    (handle_message_member admins now uid text "" http members lastQ ⟨true⟩).replies
        = [generate_report http] ∧
    (handle_message_member admins now uid text "" http members lastQ ⟨true⟩).userData
        = ⟨false⟩ ∧
    (handle_message_member admins now uid text "" http members lastQ ⟨true⟩).lastQueryAt
        = aset lastQ uid now ∧
    alookup (handle_message_member admins now uid text "" http members lastQ ⟨true⟩).members
        uid = some
      { info with credit :=
          match info.credit with
          | .inf => Credit.inf
          | .fin c =>
            if generate_report http ≠ "" ∧
                str_startsWith (generate_report http) "🚫" = false then
              Credit.fin (max (c - CREDIT_COST_PER_QUERY) 0)
            else Credit.fin c } := by
  have hm2 : alookup (reconciled_ledger admins now members) uid = some info :=
    reconciled_lookup_live hadm hm hexp
  obtain ⟨q, hqe⟩ := Option.isSome_iff_exists.mp hq
  have h1 : pyStrip text ≠ "Status" := by
    intro h
    rw [h, show clean_input "Status" = none from by decide] at hqe
    exact Option.noConfusion hqe
  have h2 : pyStrip text ≠ "Help" := by
    intro h
    rw [h, show clean_input "Help" = none from by decide] at hqe
    exact Option.noConfusion hqe
  have h3 : pyStrip text ≠ "Mobile/Email" := by
    intro h
    rw [h, show clean_input "Mobile/Email" = none from by decide] at hqe
    exact Option.noConfusion hqe
  unfold handle_message_member
  simp only [hm2, ne_eq, not_true_eq_false, false_and, if_false, ite_false, h1, h2, h3,
    if_neg, hexp, hcool, hqe, hadm, Bool.false_eq_true, reduceIte]
  refine ⟨trivial, trivial, trivial, ?_⟩
  cases info with
  | mk expiry credit name =>
    cases credit with
    | inf =>
      dsimp only
      simp only [ite_self]
      rw [hm2]
    | fin c =>
      by_cases hres : generate_report http ≠ "" ∧
          str_startsWith (generate_report http) "🚫" = false
      · simp only [if_pos hres]
        rw [alookup_aset_self]
      · simp only [if_neg hres]
        rw [hm2]

/-! ## Claim C7 -/

/-- C7: for every lookup-failure outcome — server unreachable after
retries, non-200 HTTP status, or a malformed response body — the member
is shown (exactly) a server-problem message and the member's credit is
not debited: the ledger record is unchanged by the failed query. -/
theorem lookup_failure_reports_problem_and_no_debit (admins : List Int) (now : Nat)
    (uid : Int) (text : String) (http : HttpResp) (members : Ledger)
    (lastQ : List (Int × Nat)) (info : MemberInfo)
    (hadm : uid ∉ admins)
    (hm : alookup members uid = some info)
    (hexp : isExpired now info = false)
    (hcool : alookup lastQ uid = none)
    (hq : (clean_input (pyStrip text)).isSome = true)
    (hfail : isLookupFailure http = true) :
    (handle_message_member admins now uid text "" http members lastQ ⟨true⟩).replies
        = [generate_report http] ∧
    isServerFailureMessage (generate_report http) = true ∧
    alookup (handle_message_member admins now uid text "" http members lastQ
        ⟨true⟩).members uid = some info := by
  obtain ⟨hrep, -, -, hmem⟩ :=
    handle_accepted_query_run admins now uid text http members lastQ info
      hadm hm hexp hcool hq
  obtain ⟨hmsg, hstart⟩ := generate_report_failure http hfail
  refine ⟨hrep, hmsg, ?_⟩
  rw [hmem]
  congr 1
  cases info with
  | mk e cr nm =>
    cases cr with
    | inf => rfl
    | fin c =>
      dsimp only
      rw [if_neg (by rintro ⟨-, hf⟩; rw [hstart] at hf; exact Bool.noConfusion hf)]

/-- Witness for C7: an unreachable server on a live 5-credit member. -/
theorem lookup_failure_reports_problem_and_no_debit_witness :
    (handle_message_member [] 0 1 "9876543210" "" HttpResp.timeout
        [(1, ⟨100, Credit.fin 5, ""⟩)] [] ⟨true⟩).replies
      = [generate_report HttpResp.timeout] ∧
    isServerFailureMessage (generate_report HttpResp.timeout) = true ∧
    alookup (handle_message_member [] 0 1 "9876543210" "" HttpResp.timeout
        [(1, ⟨100, Credit.fin 5, ""⟩)] [] ⟨true⟩).members 1
      = some ⟨100, Credit.fin 5, ""⟩ :=
  lookup_failure_reports_problem_and_no_debit [] 0 1 "9876543210" HttpResp.timeout
    [(1, ⟨100, Credit.fin 5, ""⟩)] [] ⟨100, Credit.fin 5, ""⟩
    (by decide) (by decide) (by decide) (by decide) (by decide) (by decide)

/-! ## Claim C4 (corrected) -/

/-- Counterexample to C4 as stated: a member in the AwaitingQuery state
whose message is rejected as invalid input (`clean_input "12345" = none`)
does NOT return to Idle — the handler replies "Invalid input." and
leaves the `awaiting_query` flag set (lines 528-530 return without
popping the flag). -/
theorem awaiting_query_kept_on_invalid_input :
    (handle_message_member [] 0 1 "12345" "" HttpResp.timeout
        [(1, ⟨100, Credit.fin 5, ""⟩)] [] ⟨true⟩).replies = ["❌ Invalid input."] ∧
    (handle_message_member [] 0 1 "12345" "" HttpResp.timeout
        [(1, ⟨100, Credit.fin 5, ""⟩)] [] ⟨true⟩).userData.awaiting_query = true := by
  exact ⟨by decide, by decide⟩

/-- C4 (amended): for a non-admin member in the AwaitingQuery state with
a live, unexpired record and no active cooldown, one message clears the
state back to Idle exactly when the normalizer accepts it as a query
(whether the lookup then succeeds or fails); a message the normalizer
rejects — the invalid-input rejection — leaves the user in
AwaitingQuery. -/
theorem awaiting_query_cleared_iff_query_accepted (admins : List Int) (now : Nat)
    (uid : Int) (text : String) (http : HttpResp) (members : Ledger)
    (lastQ : List (Int × Nat)) (info : MemberInfo)
    (hadm : uid ∉ admins)
    (hm : alookup members uid = some info)
    (hexp : isExpired now info = false)
    (hcool : alookup lastQ uid = none) :
    (handle_message_member admins now uid text "" http members lastQ
        ⟨true⟩).userData.awaiting_query = (clean_input (pyStrip text)).isNone := by
  have hm2 : alookup (reconciled_ledger admins now members) uid = some info :=
    reconciled_lookup_live hadm hm hexp
  by_cases hq : (clean_input (pyStrip text)).isSome = true
  · obtain ⟨-, hud, -, -⟩ :=
      handle_accepted_query_run admins now uid text http members lastQ info
        hadm hm hexp hcool hq
    rw [hud]
    cases hc : clean_input (pyStrip text) with
    | none => rw [hc] at hq; exact Bool.noConfusion hq
    | some q => rfl
  · have hn : clean_input (pyStrip text) = none := by
      cases hc : clean_input (pyStrip text) with
      | none => rfl
      | some q => rw [hc] at hq; simp at hq
    rw [hn]
    unfold handle_message_member
    by_cases h1 : pyStrip text = "Status"
    · simp [hm2, h1]
    by_cases h2 : pyStrip text = "Help"
    · simp [hm2, h1, h2]
    by_cases h3 : pyStrip text = "Mobile/Email"
    · simp [hm2, h1, h2, h3, hexp]
    · simp [hm2, h1, h2, h3, hexp, hcool, hn]

/-- Witness for C4 (amended): a valid query input clears the flag. -/
theorem awaiting_query_cleared_iff_query_accepted_witness :
    (handle_message_member [] 0 1 "9876543210" "" HttpResp.timeout
        [(1, ⟨100, Credit.fin 5, ""⟩)] [] ⟨true⟩).userData.awaiting_query
      = (clean_input (pyStrip "9876543210")).isNone :=
  awaiting_query_cleared_iff_query_accepted [] 0 1 "9876543210" HttpResp.timeout
    [(1, ⟨100, Credit.fin 5, ""⟩)] [] ⟨100, Credit.fin 5, ""⟩
    (by decide) (by decide) (by decide) (by decide)

/-! ## Claim C3 (corrected) -/

/-- After an accepted query the ledger still has pairwise-distinct keys
(only the reconciled ledger, possibly with one in-place debit, remains). -/
theorem handle_accepted_query_keys_nodup (admins : List Int) (now : Nat) (uid : Int)
    (text : String) (http : HttpResp) (members : Ledger) (lastQ : List (Int × Nat))
    (info : MemberInfo)
    (hnd : (members.map Prod.fst).Nodup)
    (hadm : uid ∉ admins)
    (hm : alookup members uid = some info)
    (hexp : isExpired now info = false)
    (hcool : alookup lastQ uid = none)
    (hq : (clean_input (pyStrip text)).isSome = true) :
    (((handle_message_member admins now uid text "" http members lastQ
        ⟨true⟩).members).map Prod.fst).Nodup := by
  have hm2 : alookup (reconciled_ledger admins now members) uid = some info :=
    reconciled_lookup_live hadm hm hexp
  have h2 : ((reconciled_ledger admins now members).map Prod.fst).Nodup :=
    reconciled_keys_nodup hnd
  obtain ⟨q, hqe⟩ := Option.isSome_iff_exists.mp hq
  have h1 : pyStrip text ≠ "Status" := by
    intro h
    rw [h, show clean_input "Status" = none from by decide] at hqe
    exact Option.noConfusion hqe
  have h2' : pyStrip text ≠ "Help" := by
    intro h
    rw [h, show clean_input "Help" = none from by decide] at hqe
    exact Option.noConfusion hqe
  have h3 : pyStrip text ≠ "Mobile/Email" := by
    intro h
    rw [h, show clean_input "Mobile/Email" = none from by decide] at hqe
    exact Option.noConfusion hqe
  unfold handle_message_member
  simp only [hm2, ne_eq, not_true_eq_false, false_and, if_false, ite_false, h1, h2', h3,
    if_neg, hexp, hcool, hqe, hadm, Bool.false_eq_true, reduceIte]
  by_cases hres : generate_report http ≠ "" ∧
      str_startsWith (generate_report http) "🚫" = false
  · simp only [if_pos hres]
    cases hc : info.credit with
    | inf => exact h2
    | fin c => exact keys_aset_nodup _ _ h2
  · simp only [if_neg hres]
    cases hc : info.credit with
    | inf => exact h2
    | fin c => exact h2

/-- Any message from a user whose record the reconciliation pass just
reaped (or who has none) is answered "Not an active member", and the
record stays absent. -/
theorem handle_reaped_run (admins : List Int) (now : Nat) (uid : Int)
    (text fname : String) (http : HttpResp) (members : Ledger)
    (lastQ : List (Int × Nat)) (ud : UserData) (info : MemberInfo)
    (hnd : (members.map Prod.fst).Nodup)
    (hadm : uid ∉ admins)
    (hm : alookup members uid = some info)
    (hexp : isExpired now info = true) :
    (handle_message_member admins now uid text fname http members lastQ ud).replies
        = ["❌ Not an active member."] ∧
    alookup (handle_message_member admins now uid text fname http members lastQ
        ud).members uid = none := by
  have hm2 : alookup (reconciled_ledger admins now members) uid = none :=
    reconciled_lookup_reaped hnd hadm hm hexp
  unfold handle_message_member
  constructor
  · simp only [hm2]
  · simp only [hm2]

/-- Counterexample to C3 as stated: a member with credit 1 whose lookup
succeeds is debited to 0, but the next "Mobile/Email" attempt is NOT
rejected with the "membership expired" message — the reconciliation pass
that starts the next message has already reaped the zero-credit record,
so the reply is "Not an active member". -/
theorem credit_exhausted_member_not_shown_expired :
    alookup (handle_message_member [] 0 7 "9876543210" ""
        (.reply 200 (.parsed (.listOf [("db", [[("Name", some "X")]])])))
        [(7, ⟨1000, Credit.fin 1, "B"⟩)] [] ⟨true⟩).members 7
      = some ⟨1000, Credit.fin 0, "B"⟩ ∧
    (handle_message_member [] 1 7 "Mobile/Email" "" HttpResp.timeout
        (handle_message_member [] 0 7 "9876543210" ""
          (.reply 200 (.parsed (.listOf [("db", [[("Name", some "X")]])])))
          [(7, ⟨1000, Credit.fin 1, "B"⟩)] [] ⟨true⟩).members
        (handle_message_member [] 0 7 "9876543210" ""
          (.reply 200 (.parsed (.listOf [("db", [[("Name", some "X")]])])))
          [(7, ⟨1000, Credit.fin 1, "B"⟩)] [] ⟨true⟩).lastQueryAt
        (handle_message_member [] 0 7 "9876543210" ""
          (.reply 200 (.parsed (.listOf [("db", [[("Name", some "X")]])])))
          [(7, ⟨1000, Credit.fin 1, "B"⟩)] [] ⟨true⟩).userData).replies
      = ["❌ Not an active member."] ∧
    (handle_message_member [] 1 7 "Mobile/Email" "" HttpResp.timeout
        (handle_message_member [] 0 7 "9876543210" ""
          (.reply 200 (.parsed (.listOf [("db", [[("Name", some "X")]])])))
          [(7, ⟨1000, Credit.fin 1, "B"⟩)] [] ⟨true⟩).members
        (handle_message_member [] 0 7 "9876543210" ""
          (.reply 200 (.parsed (.listOf [("db", [[("Name", some "X")]])])))
          [(7, ⟨1000, Credit.fin 1, "B"⟩)] [] ⟨true⟩).lastQueryAt
        (handle_message_member [] 0 7 "9876543210" ""
          (.reply 200 (.parsed (.listOf [("db", [[("Name", some "X")]])])))
          [(7, ⟨1000, Credit.fin 1, "B"⟩)] [] ⟨true⟩).userData).replies
      ≠ ["❌ Membership expired. Contact admin."] := by
  exact ⟨by decide, by decide, by decide⟩

/-- C3 (amended): a non-admin member with finite credit 1 whose query is
accepted and whose lookup succeeds is left with credit exactly 0 and an
unchanged expiry (and name); the member's next "Mobile/Email" attempt —
a fresh inbound message, at any later instant — is rejected, but with
the "Not an active member" message: the reconciliation pass that starts
that message reaps the zero-credit record before the expired check can
run. -/
theorem credit_one_member_debited_then_reaped (admins : List Int) (now now2 : Nat)
    (uid : Int) (text : String) (http http2 : HttpResp) (members : Ledger)
    (lastQ : List (Int × Nat)) (e : Nat) (nm : String)
    (hnd : (members.map Prod.fst).Nodup)
    (hadm : uid ∉ admins)
    (hm : alookup members uid = some ⟨e, Credit.fin 1, nm⟩)
    (hexp : isExpired now ⟨e, Credit.fin 1, nm⟩ = false)
    (hcool : alookup lastQ uid = none)
    (hq : (clean_input (pyStrip text)).isSome = true)
    (hok1 : generate_report http ≠ "")
    (hok2 : str_startsWith (generate_report http) "🚫" = false) :
    alookup (handle_message_member admins now uid text "" http members lastQ
        ⟨true⟩).members uid = some ⟨e, Credit.fin 0, nm⟩ ∧
    (handle_message_member admins now2 uid "Mobile/Email" "" http2
        (handle_message_member admins now uid text "" http members lastQ ⟨true⟩).members
        (handle_message_member admins now uid text "" http members lastQ ⟨true⟩).lastQueryAt
        (handle_message_member admins now uid text "" http members lastQ
          ⟨true⟩).userData).replies
      = ["❌ Not an active member."] ∧
    alookup (handle_message_member admins now2 uid "Mobile/Email" "" http2
        (handle_message_member admins now uid text "" http members lastQ ⟨true⟩).members
        (handle_message_member admins now uid text "" http members lastQ ⟨true⟩).lastQueryAt
        (handle_message_member admins now uid text "" http members lastQ
          ⟨true⟩).userData).members uid = none := by
  obtain ⟨-, -, -, hmem⟩ :=
    handle_accepted_query_run admins now uid text http members lastQ
      ⟨e, Credit.fin 1, nm⟩ hadm hm hexp hcool hq
  have hdeb : alookup (handle_message_member admins now uid text "" http members lastQ
      ⟨true⟩).members uid = some ⟨e, Credit.fin 0, nm⟩ := by
    rw [hmem]
    congr 2
    dsimp only
    rw [if_pos ⟨hok1, hok2⟩]
    decide
  have hnd1 := handle_accepted_query_keys_nodup admins now uid text http members lastQ
    ⟨e, Credit.fin 1, nm⟩ hnd hadm hm hexp hcool hq
  have hexp0 : isExpired now2 (⟨e, Credit.fin 0, nm⟩ : MemberInfo) = true := by
    unfold isExpired
    simp
  obtain ⟨hrep2, hmem2⟩ :=
    handle_reaped_run admins now2 uid "Mobile/Email" "" http2
      (handle_message_member admins now uid text "" http members lastQ ⟨true⟩).members
      (handle_message_member admins now uid text "" http members lastQ ⟨true⟩).lastQueryAt
      (handle_message_member admins now uid text "" http members lastQ ⟨true⟩).userData
      ⟨e, Credit.fin 0, nm⟩ hnd1 hadm hdeb hexp0
  exact ⟨hdeb, hrep2, hmem2⟩

/-- Witness for C3 (amended): the debit-then-reap scenario at concrete
values. -/
theorem credit_one_member_debited_then_reaped_witness :
    alookup (handle_message_member [] 0 7 "9876543210" ""
        (.reply 200 (.parsed (.listOf [("db", [[("Name", some "X")]])])))
        [(7, ⟨1000, Credit.fin 1, "B"⟩)] [] ⟨true⟩).members 7
      = some ⟨1000, Credit.fin 0, "B"⟩ ∧
    (handle_message_member [] 5 7 "Mobile/Email" "" HttpResp.timeout
        (handle_message_member [] 0 7 "9876543210" ""
          (.reply 200 (.parsed (.listOf [("db", [[("Name", some "X")]])])))
          [(7, ⟨1000, Credit.fin 1, "B"⟩)] [] ⟨true⟩).members
        (handle_message_member [] 0 7 "9876543210" ""
          (.reply 200 (.parsed (.listOf [("db", [[("Name", some "X")]])])))
          [(7, ⟨1000, Credit.fin 1, "B"⟩)] [] ⟨true⟩).lastQueryAt
        (handle_message_member [] 0 7 "9876543210" ""
          (.reply 200 (.parsed (.listOf [("db", [[("Name", some "X")]])])))
          [(7, ⟨1000, Credit.fin 1, "B"⟩)] [] ⟨true⟩).userData).replies
      = ["❌ Not an active member."] ∧
    alookup (handle_message_member [] 5 7 "Mobile/Email" "" HttpResp.timeout
        (handle_message_member [] 0 7 "9876543210" ""
          (.reply 200 (.parsed (.listOf [("db", [[("Name", some "X")]])])))
          [(7, ⟨1000, Credit.fin 1, "B"⟩)] [] ⟨true⟩).members
        (handle_message_member [] 0 7 "9876543210" ""
          (.reply 200 (.parsed (.listOf [("db", [[("Name", some "X")]])])))
          [(7, ⟨1000, Credit.fin 1, "B"⟩)] [] ⟨true⟩).lastQueryAt
        (handle_message_member [] 0 7 "9876543210" ""
          (.reply 200 (.parsed (.listOf [("db", [[("Name", some "X")]])])))
          [(7, ⟨1000, Credit.fin 1, "B"⟩)] [] ⟨true⟩).userData).members 7 = none :=
  credit_one_member_debited_then_reaped [] 0 5 7 "9876543210"
    (.reply 200 (.parsed (.listOf [("db", [[("Name", some "X")]])]))) HttpResp.timeout
    [(7, ⟨1000, Credit.fin 1, "B"⟩)] [] 1000 "B"
    (by decide) (by decide) (by decide) (by decide) (by decide) (by decide)
    (by decide) (by decide)
